import Mathlib

/-!
# Verification of the whole-contest submission crawler

This file embeds, in Lean 4, the data model and operations of the
AtCoderProblems whole-contest crawler:

* the `crawl_whole_contest` binary (`src/atcoder-problems-backend/src/bin/
  crawl_whole_contest.rs`) is embedded directly from its source as
  `mainModel`, with its external effects (environment, argument list,
  pool construction, crawl execution) passed in as explicit parameters
  and an event trace recording what the process touches;

* the crawler engine itself (`atcoder_problems_backend::crawler::
  WholeContestCrawler` and its collaborators) is not part of the
  available sources — only its caller is — so it is modelled from the
  specification: submission records keyed by submission id, a paginated
  judge-service client, an idempotent upsert store, a cursor that
  advances strictly past the last record of each page with a
  same-timestamp-safe id tie-break, bounded retry with capped
  exponential backoff for transient failures, and immediate abort on
  permanent failures.

Machine integers of the source are modelled as `Nat`/`Int` (no field of
the model is subject to overflow-relevant arithmetic).  Suspension,
scheduling and wall-clock delays are timing behaviour; the backoff
delays the crawler would sleep are made observable as a list of delay
values instead.
-/

set_option autoImplicit false

namespace Crawler

/-- Modelled from the spec: the `SubmissionRecord` data model of the crawler
crate (absent from the available sources).  One judged submission: the
submission id is the dedup key, the epoch-second timestamp orders the
pagination. -/
structure SubmissionRecord where
  id : Nat
  contestId : String
  problemId : String
  userId : String
  epochSecond : Nat
  result : String
  point : Int
  executionTime : Option Nat
  memory : Option Nat
  language : String
deriving DecidableEq, Repr

/-- Pagination key of a record: `(timestamp, submission id)`, so that
records sharing a timestamp are still strictly ordered by id. -/
def SubmissionRecord.key (r : SubmissionRecord) : Nat × Nat :=
  (r.epochSecond, r.id)

/-- Strict lexicographic order on pagination keys: earlier timestamp first,
submission id as the tie-break. -/
def keyLt (a b : Nat × Nat) : Bool :=
  a.1 < b.1 || (a.1 == b.1 && a.2 < b.2)

/-- Modelled from the spec: the crawler-internal `PaginationCursor` (absent
from the available sources).  `none` is the sweep's starting boundary
(before all records); `some k` means all records with key ≤ `k` have been
fetched. -/
abbrev PaginationCursor := Option (Nat × Nat)

/-- Does record `r` lie strictly after cursor `c`? -/
def afterCursor (c : PaginationCursor) (r : SubmissionRecord) : Bool :=
  match c with
  | none => true
  | some k => keyLt k r.key

/-- Errors of the judge-service client, classified transient/permanent. -/
inductive ClientError where
  | Transient
  | NotFound
  | Malformed
deriving DecidableEq, Repr

/-- Modelled from the spec: the `JudgeServiceClient` capability contract
(the concrete `AtCoderClient` HTTP implementation is an external
collaborator).  `fetch contestId cursor attempt` returns the page of
submissions after `cursor`; the attempt index lets a model client behave
differently across retries (a transient upstream). -/
structure JudgeClient where
  fetch : String → PaginationCursor → Nat → Except ClientError (List SubmissionRecord)

/-- Synthetic judge service over a fixed ordered submission list: a page
request returns the first `psize` records strictly after the cursor,
independently of the attempt index (a reliable, unchanging upstream). -/
def fetchPage (subs : List SubmissionRecord) (psize : Nat)
    (c : PaginationCursor) : List SubmissionRecord :=
  (subs.filter (afterCursor c)).take psize

/-- A `JudgeClient` built from `fetchPage`. -/
def syntheticClient (subs : List SubmissionRecord) (psize : Nat) : JudgeClient :=
  ⟨fun _ c _ => .ok (fetchPage subs psize c)⟩

/-- The ordering guarantee of the judge service: the submission listing is
strictly sorted by `(timestamp, id)` key — timestamps non-decreasing, ids
breaking ties. -/
def sortedByKey (subs : List SubmissionRecord) : Prop :=
  subs.Pairwise fun a b => keyLt a.key b.key = true

/-- Modelled from the spec: the `SubmissionStore` upsert, keyed by
submission id — re-upserting an already-known id is a no-op.  Returns the
new store contents together with the counts of newly persisted and
already-known records of the page. -/
def upsertPage (store : List SubmissionRecord) :
    List SubmissionRecord → List SubmissionRecord × Nat × Nat
  | [] => (store, 0, 0)
  | r :: rs =>
    if store.any fun s => s.id == r.id then
      let p := upsertPage store rs
      (p.1, p.2.1, p.2.2 + 1)
    else
      let p := upsertPage (store ++ [r]) rs
      (p.1, p.2.1 + 1, p.2.2)

/-- Modelled from the spec: cursor advance — strictly past the last record
of the page, by `(timestamp, id)` key; an empty page leaves the cursor
unchanged. -/
def advanceCursor (c : PaginationCursor) (page : List SubmissionRecord) :
    PaginationCursor :=
  match page.getLast? with
  | none => c
  | some r => some r.key

/-- Reasons a crawl fails. -/
inductive FailReason where
  | Unavailable
  | InvalidContest
  | ProtocolError
deriving DecidableEq, Repr

/-- Terminal status of a crawl. -/
inductive CrawlStatus where
  | Complete
  | Failed (reason : FailReason)
deriving DecidableEq, Repr

/-- Summary returned by `crawl`: terminal status, submissions fetched,
newly persisted vs. already known. -/
structure CrawlResult where
  status : CrawlStatus
  fetched : Nat
  persistedNew : Nat
  alreadyKnown : Nat
deriving DecidableEq, Repr

/-- Full observable outcome of a crawl: the durable store contents, the
`CrawlResult` summary, and the backoff delays slept (in order). -/
structure CrawlOutcome where
  store : List SubmissionRecord
  result : CrawlResult
  sleeps : List Nat
deriving DecidableEq, Repr

/-- Retry/backoff configuration: `retryBound` is the maximum number of
attempts per page; delays double from `backoffBase`, capped at
`backoffCap`. -/
structure CrawlConfig where
  retryBound : Nat
  backoffBase : Nat
  backoffCap : Nat
deriving DecidableEq, Repr

/-- Capped exponential backoff delay before retry number `i + 1`. -/
def backoffDelay (cfg : CrawlConfig) (i : Nat) : Nat :=
  min cfg.backoffCap (cfg.backoffBase * 2 ^ i)

/-- Outcome of fetching one page with retries: the classified result, the
number of attempts made, and the backoff delays slept between attempts. -/
structure FetchOutcome where
  result : Except FailReason (List SubmissionRecord)
  attempts : Nat
  sleeps : List Nat
deriving Repr

/-- Modelled from the spec: the bounded-retry page fetch (absent from the
available sources).  `remaining` attempts are left, `attempt` attempts were
already made.  Transient failures back off and retry; permanent failures
abort at once; exhausting the bound surfaces `Unavailable`. -/
def fetchRetryGo (client : JudgeClient) (cfg : CrawlConfig) (contestId : String)
    (cursor : PaginationCursor) : Nat → Nat → FetchOutcome
  | 0, attempt => ⟨.error .Unavailable, attempt, []⟩
  | 1, attempt =>
    match client.fetch contestId cursor attempt with
    | .ok page => ⟨.ok page, attempt + 1, []⟩
    | .error .NotFound => ⟨.error .InvalidContest, attempt + 1, []⟩
    | .error .Malformed => ⟨.error .ProtocolError, attempt + 1, []⟩
    | .error .Transient => ⟨.error .Unavailable, attempt + 1, []⟩
  | Nat.succ (Nat.succ m), attempt =>
    match client.fetch contestId cursor attempt with
    | .ok page => ⟨.ok page, attempt + 1, []⟩
    | .error .NotFound => ⟨.error .InvalidContest, attempt + 1, []⟩
    | .error .Malformed => ⟨.error .ProtocolError, attempt + 1, []⟩
    | .error .Transient =>
      let rest := fetchRetryGo client cfg contestId cursor (Nat.succ m) (attempt + 1)
      ⟨rest.result, rest.attempts, backoffDelay cfg attempt :: rest.sleeps⟩

/-- Fetch one page, retrying transient failures up to `cfg.retryBound`
attempts with capped exponential backoff. -/
def fetchWithRetry (client : JudgeClient) (cfg : CrawlConfig) (contestId : String)
    (cursor : PaginationCursor) : FetchOutcome :=
  fetchRetryGo client cfg contestId cursor cfg.retryBound 0

/-- Modelled from the spec: the main pagination loop of `crawl` (absent
from the available sources).  Each iteration fetches the page after
`cursor` with retries; an empty page completes the sweep; a non-empty page
is upserted into the store and the cursor advances strictly past its last
record.  `fuel` bounds the number of iterations (`none` = fuel exhausted);
the accumulators carry the counts and the delays slept so far. -/
def crawlLoop (client : JudgeClient) (cfg : CrawlConfig) (contestId : String) :
    Nat → PaginationCursor → List SubmissionRecord → Nat → Nat → Nat →
    List Nat → Option CrawlOutcome
  | 0, _, _, _, _, _, _ => none
  | Nat.succ fuel, cursor, store, fetched, newC, knownC, sleeps =>
    let f := fetchWithRetry client cfg contestId cursor
    match f.result with
    | .error reason =>
      some ⟨store, ⟨.Failed reason, fetched, newC, knownC⟩, sleeps ++ f.sleeps⟩
    | .ok [] =>
      some ⟨store, ⟨.Complete, fetched, newC, knownC⟩, sleeps ++ f.sleeps⟩
    | .ok (r :: rs) =>
      let up := upsertPage store (r :: rs)
      crawlLoop client cfg contestId fuel (advanceCursor cursor (r :: rs)) up.1
        (fetched + (r :: rs).length) (newC + up.2.1) (knownC + up.2.2)
        (sleeps ++ f.sleeps)

/-- Opaque token standing for the database connection pool capability. -/
structure PgPool where
  url : String
deriving DecidableEq, Repr

/-- Configuration error of crawler construction. -/
inductive CrawlerError where
  | ConfigurationError
deriving DecidableEq, Repr

/-- Modelled from the spec: the `WholeContestCrawler` state — one
persistence capability, one judge-service capability, one contest id,
fixed at construction. -/
structure WholeContestCrawler where
  db : PgPool
  client : JudgeClient
  contestId : String

/-- Modelled from the spec: `WholeContestCrawler` construction (absent
from the available sources) — takes the persistence capability, the
judge-service capability and the contest id; fails with
`ConfigurationError` when the contest id is empty (the capabilities are
values and cannot be null). -/
def WholeContestCrawler.new (db : PgPool) (client : JudgeClient)
    (contestId : String) : Except CrawlerError WholeContestCrawler :=
  if contestId.isEmpty then .error .ConfigurationError
  else .ok ⟨db, client, contestId⟩

/-- Modelled from the spec: `crawl()` — a full sweep from the starting
boundary over an initially given durable store.  `fuel` bounds the number
of pages visited. -/
def WholeContestCrawler.crawl (c : WholeContestCrawler) (cfg : CrawlConfig)
    (fuel : Nat) (store : List SubmissionRecord) : Option CrawlOutcome :=
  crawlLoop c.client cfg c.contestId fuel none store 0 0 0 []

/-- A judge client that fails transiently on every call (an upstream that
never recovers). -/
def transientClient : JudgeClient :=
  ⟨fun _ _ _ => .error .Transient⟩

/-- A judge client that reports the contest as not found on every call. -/
def notFoundClient : JudgeClient :=
  ⟨fun _ _ _ => .error .NotFound⟩

/-- A concrete submission record with the given id and timestamp, for use
in concrete scenarios. -/
def mkRec (i t : Nat) : SubmissionRecord :=
  ⟨i, "abc001", "abc001_a", "u", t, "AC", 100, none, none, "Rust"⟩

/-- A concrete judge listing with a timestamp tie at a page boundary:
five submissions, the last three sharing one timestamp. -/
def sampleSubs : List SubmissionRecord :=
  [mkRec 1 10, mkRec 2 15, mkRec 3 20, mkRec 4 20, mkRec 5 20]

end Crawler

namespace Bin

/-- The `AtCoderClient` value of the `algorithm_problem_client` crate as
seen by the binary: constructed only via `default`, from no input; its
internals are external to the sources and irrelevant to the binary's
control flow, so it is a token type. -/
structure AtCoderClient where
deriving DecidableEq, Repr

/-- `AtCoderClient::default()`. -/
def AtCoderClient.default : AtCoderClient := ⟨⟩

/-- One observable step of the `crawl_whole_contest` process: reading an
environment variable, reading a positional argument, building the pool,
constructing the crawler, invoking `crawl`. -/
inductive Event where
  | readEnv (name : String) (value : Option String)
  | readArg (idx : Nat) (value : Option String)
  | poolInit (url : String)
  | construct (pool : Crawler.PgPool) (client : AtCoderClient) (contestId : String)
  | invokeCrawl (contestId : String)
deriving DecidableEq, Repr

/-- How the process terminates: a panic with the `expect` message, or an
exit with a status code (0 for `Ok(())`, 1 for a propagated `Err`). -/
inductive MainOutcome where
  | panicked (msg : String)
  | exited (code : Nat)
deriving DecidableEq, Repr

/-- Embedding of `main` of `crawl_whole_contest.rs`, line by line:
`SQL_URL` is read from the environment (`expect "SQL_URL is not set."`),
the contest id is argument 1 (`expect "contest_id is not set."`), the
pool is built from the url (`?` propagates its error), one crawler is
constructed from the pool, `AtCoderClient::default()` and the contest id,
and its `crawl` is invoked once (`?` propagates its error).  The external
effects are parameters: `env` the environment, `args` the argument list
(index 0 is the program name), `initPool` pool construction, `runCrawl`
the crawl of the constructed crawler.  Returns the terminal outcome and
the event trace. -/
def mainModel (env : String → Option String) (args : List String)
    (initPool : String → Except String Crawler.PgPool)
    (runCrawl : Crawler.PgPool → AtCoderClient → String → Except String Unit) :
    MainOutcome × List Event :=
  match env "SQL_URL" with
  | none => (.panicked "SQL_URL is not set.", [.readEnv "SQL_URL" none])
  | some url =>
    match args[1]? with
    | none =>
      (.panicked "contest_id is not set.",
        [.readEnv "SQL_URL" (some url), .readArg 1 none])
    | some contestId =>
      match initPool url with
      | .error _ =>
        (.exited 1,
          [.readEnv "SQL_URL" (some url), .readArg 1 (some contestId),
            .poolInit url])
      | .ok db =>
        match runCrawl db AtCoderClient.default contestId with
        | .error _ =>
          (.exited 1,
            [.readEnv "SQL_URL" (some url), .readArg 1 (some contestId),
              .poolInit url, .construct db AtCoderClient.default contestId,
              .invokeCrawl contestId])
        | .ok _ =>
          (.exited 0,
            [.readEnv "SQL_URL" (some url), .readArg 1 (some contestId),
              .poolInit url, .construct db AtCoderClient.default contestId,
              .invokeCrawl contestId])

/-- Is this event a crawler construction? -/
def Event.isConstruct : Event → Bool
  | .construct _ _ _ => true
  | _ => false

/-- Is this event a `crawl()` invocation? -/
def Event.isInvokeCrawl : Event → Bool
  | .invokeCrawl _ => true
  | _ => false

/-- Is this event an input read (environment or argument)? -/
def Event.isInputRead : Event → Bool
  | .readEnv _ _ => true
  | .readArg _ _ => true
  | _ => false

/-- The client of a construction event, when it is one. -/
def Event.clientOf : Event → Option AtCoderClient
  | .construct _ client _ => some client
  | _ => none

/-- The contest id of a `crawl()` invocation event, when it is one. -/
def Event.crawlContestOf : Event → Option String
  | .invokeCrawl cid => some cid
  | _ => none

end Bin

namespace Bin

/-- Every construction event any invocation of the process emits carries the
default-constructed client. -/
lemma mainModel_construct_client (env : String → Option String) (args : List String)
    (initPool : String → Except String Crawler.PgPool)
    (runCrawl : Crawler.PgPool → AtCoderClient → String → Except String Unit)
    (e : Event) (he : e ∈ (mainModel env args initPool runCrawl).2)
    (hc : e.isConstruct = true) :
    e.clientOf = some AtCoderClient.default := by
  cases henv : env "SQL_URL" with
  | none =>
    simp [mainModel, henv] at he
    subst he
    simp [Event.isConstruct] at hc
  | some url =>
    cases harg : args[1]? with
    | none =>
      simp [mainModel, henv, harg] at he
      rcases he with he | he <;> subst he <;> simp [Event.isConstruct] at hc
    | some cid =>
      cases hpool : initPool url with
      | error err =>
        simp [mainModel, henv, harg, hpool] at he
        rcases he with he | he | he <;> subst he <;> simp [Event.isConstruct] at hc
      | ok db =>
        cases hcr : runCrawl db AtCoderClient.default cid <;>
          · simp [mainModel, henv, harg, hpool, hcr] at he
            rcases he with he | he | he | he | he <;> subst he <;>
              simp [Event.isConstruct, Event.clientOf] at hc ⊢

end Bin

namespace Bin

/-- C6: the process surface reads exactly one contest identifier (positional
argument 1) and one connection string (environment variable `SQL_URL`) —
those are its only input reads — and, once the pool is up, it exits with
status 0 exactly when `crawl` completes and with the non-zero status 1
whenever `crawl` fails. -/
theorem mainModel_surface_and_exit_codes
    (env : String → Option String) (args : List String)
    (initPool : String → Except String Crawler.PgPool)
    (runCrawl : Crawler.PgPool → AtCoderClient → String → Except String Unit)
    (url cid : String) (db : Crawler.PgPool)
    (henv : env "SQL_URL" = some url) (harg : args[1]? = some cid)
    (hpool : initPool url = .ok db) :
    (mainModel env args initPool runCrawl).2.filter Event.isInputRead
        = [.readEnv "SQL_URL" (some url), .readArg 1 (some cid)] ∧
    ((mainModel env args initPool runCrawl).1 = .exited 0
        ↔ runCrawl db AtCoderClient.default cid = .ok ()) ∧
    (∀ msg, runCrawl db AtCoderClient.default cid = .error msg →
        (mainModel env args initPool runCrawl).1 = .exited 1 ∧ (1 : Nat) ≠ 0) := by
  cases hcr : runCrawl db AtCoderClient.default cid <;>
    simp [mainModel, henv, harg, hpool, hcr, Event.isInputRead, List.filter]

/-- C6 witness: a concrete failing and a concrete succeeding invocation. -/
theorem mainModel_surface_and_exit_codes_witness :
    ((mainModel (fun _ => some "postgres://h") ["crawl", "abc001"]
        (fun u => .ok ⟨u⟩) (fun _ _ _ => .ok ())).1 = .exited 0 ∧
      (mainModel (fun _ => some "postgres://h") ["crawl", "abc001"]
        (fun u => .ok ⟨u⟩) (fun _ _ _ => .error "boom")).1 = .exited 1) := by
  constructor
  · exact (mainModel_surface_and_exit_codes (fun _ => some "postgres://h")
      ["crawl", "abc001"] (fun u => .ok ⟨u⟩) (fun _ _ _ => .ok ())
      "postgres://h" "abc001" ⟨"postgres://h"⟩ rfl rfl rfl).2.1.mpr rfl
  · exact ((mainModel_surface_and_exit_codes (fun _ => some "postgres://h")
      ["crawl", "abc001"] (fun u => .ok ⟨u⟩) (fun _ _ _ => .error "boom")
      "postgres://h" "abc001" ⟨"postgres://h"⟩ rfl rfl rfl).2.2 "boom" rfl).1

/-- C7: every invocation constructs at most one crawler and invokes at most
one crawl, every crawl invocation is bound to the contest id from argument
1, and on the path where the pool is up there is exactly one construction
(bound to the one pool, the default client and the one contest id), exactly
one crawl invocation, and the process either completes (exit 0) or fails
classified (exit 1). -/
theorem mainModel_one_crawler_one_crawl
    (env : String → Option String) (args : List String)
    (initPool : String → Except String Crawler.PgPool)
    (runCrawl : Crawler.PgPool → AtCoderClient → String → Except String Unit) :
    ((mainModel env args initPool runCrawl).2.filter Event.isConstruct).length ≤ 1 ∧
    ((mainModel env args initPool runCrawl).2.filter Event.isInvokeCrawl).length ≤ 1 ∧
    (∀ e ∈ (mainModel env args initPool runCrawl).2,
      ∀ c, e.crawlContestOf = some c → args[1]? = some c) ∧
    (∀ url cid db, env "SQL_URL" = some url → args[1]? = some cid →
      initPool url = .ok db →
      (mainModel env args initPool runCrawl).2.filter Event.isConstruct
          = [.construct db AtCoderClient.default cid] ∧
      (mainModel env args initPool runCrawl).2.filter Event.isInvokeCrawl
          = [.invokeCrawl cid] ∧
      ((mainModel env args initPool runCrawl).1 = .exited 0 ∨
        (mainModel env args initPool runCrawl).1 = .exited 1)) := by
  cases henv : env "SQL_URL" with
  | none =>
    simp [mainModel, henv, Event.isConstruct, Event.isInvokeCrawl,
      Event.crawlContestOf, List.filter]
  | some url =>
    cases harg : args[1]? with
    | none =>
      simp [mainModel, henv, harg, Event.isConstruct, Event.isInvokeCrawl,
        Event.crawlContestOf, List.filter]
    | some cid =>
      cases hpool : initPool url with
      | error err =>
        simp [mainModel, henv, harg, hpool, Event.isConstruct,
          Event.isInvokeCrawl, Event.crawlContestOf, List.filter]
        rintro u c d rfl rfl h
        rw [hpool] at h
        simp at h
      | ok db =>
        cases hcr : runCrawl db AtCoderClient.default cid <;>
          · simp [mainModel, henv, harg, hpool, hcr, Event.isConstruct,
              Event.isInvokeCrawl, Event.crawlContestOf, List.filter]
            rintro u c d rfl rfl h
            rw [hpool] at h
            injection h with h2
            exact ⟨h2, rfl⟩

/-- C7 witness: a concrete invocation reaching the crawl. -/
theorem mainModel_one_crawler_one_crawl_witness :
    (mainModel (fun _ => some "postgres://h") ["crawl", "abc001"]
        (fun u => .ok ⟨u⟩) (fun _ _ _ => .ok ())).2.filter Event.isConstruct
      = [.construct ⟨"postgres://h"⟩ AtCoderClient.default "abc001"] := by
  exact ((mainModel_one_crawler_one_crawl (fun _ => some "postgres://h")
    ["crawl", "abc001"] (fun u => .ok ⟨u⟩) (fun _ _ _ => .ok ())).2.2.2
    "postgres://h" "abc001" ⟨"postgres://h"⟩ rfl rfl rfl).1

/-- C9: with `SQL_URL` unset the process panics with "SQL_URL is not set."
before the argument is examined (the trace holds only the environment
read); with `SQL_URL` set but no argument 1 it panics with "contest_id is
not set." before the pool is initialized (the trace holds only the two
input reads) — in both cases no pool, no crawler construction and no crawl
invocation appears in the trace. -/
theorem mainModel_missing_inputs_panic
    (env : String → Option String) (args : List String)
    (initPool : String → Except String Crawler.PgPool)
    (runCrawl : Crawler.PgPool → AtCoderClient → String → Except String Unit) :
    (env "SQL_URL" = none →
      mainModel env args initPool runCrawl
        = (.panicked "SQL_URL is not set.", [.readEnv "SQL_URL" none])) ∧
    (∀ url, env "SQL_URL" = some url → args[1]? = none →
      mainModel env args initPool runCrawl
        = (.panicked "contest_id is not set.",
            [.readEnv "SQL_URL" (some url), .readArg 1 none])) := by
  constructor
  · intro henv
    simp [mainModel, henv]
  · intro url henv harg
    simp [mainModel, henv, harg]

/-- C9 witness: both panic paths at concrete inputs. -/
theorem mainModel_missing_inputs_panic_witness :
    mainModel (fun _ => none) ["crawl", "abc001"] (fun u => .ok ⟨u⟩)
        (fun _ _ _ => .ok ())
      = (.panicked "SQL_URL is not set.", [.readEnv "SQL_URL" none]) ∧
    mainModel (fun _ => some "postgres://h") ["crawl"] (fun u => .ok ⟨u⟩)
        (fun _ _ _ => .ok ())
      = (.panicked "contest_id is not set.",
          [.readEnv "SQL_URL" (some "postgres://h"), .readArg 1 none]) := by
  constructor
  · exact (mainModel_missing_inputs_panic (fun _ => none) ["crawl", "abc001"]
      (fun u => .ok ⟨u⟩) (fun _ _ _ => .ok ())).1 rfl
  · exact (mainModel_missing_inputs_panic (fun _ => some "postgres://h")
      ["crawl"] (fun u => .ok ⟨u⟩) (fun _ _ _ => .ok ())).2 "postgres://h" rfl rfl

/-- C10: the judge-service capability handed to the crawler is always the
default-constructed client — across any two invocations with any
environments, arguments, pool builders and crawl behaviours, every
construction event carries the same client value,
`AtCoderClient.default`. -/
theorem mainModel_client_independent_of_inputs
    (env₁ : String → Option String) (args₁ : List String)
    (p₁ : String → Except String Crawler.PgPool)
    (r₁ : Crawler.PgPool → AtCoderClient → String → Except String Unit)
    (env₂ : String → Option String) (args₂ : List String)
    (p₂ : String → Except String Crawler.PgPool)
    (r₂ : Crawler.PgPool → AtCoderClient → String → Except String Unit)
    (e₁ e₂ : Event)
    (h₁ : e₁ ∈ (mainModel env₁ args₁ p₁ r₁).2)
    (h₂ : e₂ ∈ (mainModel env₂ args₂ p₂ r₂).2)
    (hc₁ : e₁.isConstruct = true) (hc₂ : e₂.isConstruct = true) :
    e₁.clientOf = some AtCoderClient.default ∧ e₁.clientOf = e₂.clientOf := by
  have d₁ := mainModel_construct_client env₁ args₁ p₁ r₁ e₁ h₁ hc₁
  have d₂ := mainModel_construct_client env₂ args₂ p₂ r₂ e₂ h₂ hc₂
  exact ⟨d₁, d₁.trans d₂.symm⟩

/-- C10 witness: two invocations with different environments and arguments,
whose construction events carry the same client. -/
theorem mainModel_client_independent_of_inputs_witness :
    (Event.construct ⟨"postgres://a"⟩ AtCoderClient.default "abc001").clientOf
        = some AtCoderClient.default ∧
    (Event.construct ⟨"postgres://a"⟩ AtCoderClient.default "abc001").clientOf
        = (Event.construct ⟨"postgres://b"⟩ AtCoderClient.default "xyz999").clientOf := by
  exact mainModel_client_independent_of_inputs
    (fun _ => some "postgres://a") ["crawl", "abc001"] (fun u => .ok ⟨u⟩)
    (fun _ _ _ => .ok ())
    (fun _ => some "postgres://b") ["crawl", "xyz999"] (fun u => .ok ⟨u⟩)
    (fun _ _ _ => .error "down")
    (.construct ⟨"postgres://a"⟩ AtCoderClient.default "abc001")
    (.construct ⟨"postgres://b"⟩ AtCoderClient.default "xyz999")
    (by simp [mainModel]) (by simp [mainModel]) rfl rfl

end Bin

namespace Crawler

/-- C8: crawler construction takes the persistence capability, the
judge-service capability and the contest id (capabilities are values of
their types, hence never null), and fails with `ConfigurationError`
exactly when the contest id is the empty string; otherwise it yields the
crawler bound to the three inputs. -/
theorem wholeContestCrawler_new_validates
    (db : PgPool) (client : JudgeClient) (cid : String) :
    (cid = "" →
      WholeContestCrawler.new db client cid = .error .ConfigurationError) ∧
    (cid ≠ "" →
      WholeContestCrawler.new db client cid = .ok ⟨db, client, cid⟩) := by
  constructor
  · intro h
    simp [WholeContestCrawler.new, String.isEmpty_iff, h]
  · intro h
    simp [WholeContestCrawler.new, String.isEmpty_iff, h]

/-- C8 witness: the empty contest id is rejected, a non-empty one is
accepted. -/
theorem wholeContestCrawler_new_validates_witness :
    WholeContestCrawler.new ⟨"postgres://h"⟩ ⟨fun _ _ _ => .ok []⟩ ""
        = .error .ConfigurationError ∧
    WholeContestCrawler.new ⟨"postgres://h"⟩ ⟨fun _ _ _ => .ok []⟩ "abc001"
        = .ok ⟨⟨"postgres://h"⟩, ⟨fun _ _ _ => .ok []⟩, "abc001"⟩ := by
  constructor
  · exact (wholeContestCrawler_new_validates ⟨"postgres://h"⟩
      ⟨fun _ _ _ => .ok []⟩ "").1 rfl
  · exact (wholeContestCrawler_new_validates ⟨"postgres://h"⟩
      ⟨fun _ _ _ => .ok []⟩ "abc001").2 (by decide)

end Crawler

namespace Crawler

/-- A client that always fails transiently at a cursor exhausts all
remaining attempts, sleeping the capped exponential backoff schedule. -/
lemma fetchRetryGo_transient (client : JudgeClient) (cfg : CrawlConfig)
    (cid : String) (cursor : PaginationCursor)
    (h : ∀ a, client.fetch cid cursor a = .error .Transient) :
    ∀ m a, fetchRetryGo client cfg cid cursor (m + 1) a
      = ⟨.error .Unavailable, a + m + 1,
          (List.range m).map fun i => backoffDelay cfg (a + i)⟩ := by
  intro m
  induction m with
  | zero =>
    intro a
    simp [fetchRetryGo, h a]
  | succ m ih =>
    intro a
    have step : fetchRetryGo client cfg cid cursor (m + 1 + 1) a
        = ⟨(fetchRetryGo client cfg cid cursor (m + 1) (a + 1)).result,
            (fetchRetryGo client cfg cid cursor (m + 1) (a + 1)).attempts,
            backoffDelay cfg a ::
              (fetchRetryGo client cfg cid cursor (m + 1) (a + 1)).sleeps⟩ := by
      simp [fetchRetryGo, h a]
    have hrange : (List.range (m + 1)).map (fun i => backoffDelay cfg (a + i))
        = backoffDelay cfg a
            :: (List.range m).map fun i => backoffDelay cfg (a + 1 + i) := by
      rw [List.range_succ_eq_map, List.map_cons, List.map_map]
      simp only [Function.comp, Nat.add_zero]
      refine congrArg₂ _ rfl (List.map_congr_left fun i _ => ?_)
      exact congrArg (backoffDelay cfg) (by omega)
    rw [step, ih (a + 1), hrange]
    simp only [FetchOutcome.mk.injEq, true_and, and_true]
    omega

/-- A first-attempt success returns the page after one attempt, no
backoff. -/
lemma fetchWithRetry_first_ok (client : JudgeClient) (cfg : CrawlConfig)
    (cid : String) (cursor : PaginationCursor) (p : List SubmissionRecord)
    (h : client.fetch cid cursor 0 = .ok p) (hr : 1 ≤ cfg.retryBound) :
    fetchWithRetry client cfg cid cursor = ⟨.ok p, 1, []⟩ := by
  obtain ⟨n, hn⟩ := Nat.exists_eq_add_of_le hr
  rw [fetchWithRetry, hn, Nat.add_comm]
  cases n <;> simp [fetchRetryGo, h]

/-- A first-attempt permanent "not found" aborts after one attempt with
`InvalidContest`, no backoff. -/
lemma fetchWithRetry_first_notFound (client : JudgeClient) (cfg : CrawlConfig)
    (cid : String) (cursor : PaginationCursor)
    (h : client.fetch cid cursor 0 = .error .NotFound) (hr : 1 ≤ cfg.retryBound) :
    fetchWithRetry client cfg cid cursor = ⟨.error .InvalidContest, 1, []⟩ := by
  obtain ⟨n, hn⟩ := Nat.exists_eq_add_of_le hr
  rw [fetchWithRetry, hn, Nat.add_comm]
  cases n <;> simp [fetchRetryGo, h]

/-- A first-attempt malformed response aborts after one attempt with
`ProtocolError`, no backoff. -/
lemma fetchWithRetry_first_malformed (client : JudgeClient) (cfg : CrawlConfig)
    (cid : String) (cursor : PaginationCursor)
    (h : client.fetch cid cursor 0 = .error .Malformed) (hr : 1 ≤ cfg.retryBound) :
    fetchWithRetry client cfg cid cursor = ⟨.error .ProtocolError, 1, []⟩ := by
  obtain ⟨n, hn⟩ := Nat.exists_eq_add_of_le hr
  rw [fetchWithRetry, hn, Nat.add_comm]
  cases n <;> simp [fetchRetryGo, h]

end Crawler

namespace Crawler

/-- One loop step under a classified fetch failure: the sweep aborts with
that reason and the store is returned unchanged. -/
lemma crawlLoop_fetch_error (client : JudgeClient) (cfg : CrawlConfig)
    (cid : String) (fuel : Nat) (c : PaginationCursor)
    (store : List SubmissionRecord) (f n k : Nat) (sl : List Nat)
    (reason : FailReason) (att : Nat) (slp : List Nat)
    (hF : fetchWithRetry client cfg cid c = ⟨.error reason, att, slp⟩) :
    crawlLoop client cfg cid (fuel + 1) c store f n k sl
      = some ⟨store, ⟨.Failed reason, f, n, k⟩, sl ++ slp⟩ := by
  simp [crawlLoop, hF]

/-- One loop step under an empty fetched page: the sweep completes with the
store unchanged. -/
lemma crawlLoop_fetch_nil (client : JudgeClient) (cfg : CrawlConfig)
    (cid : String) (fuel : Nat) (c : PaginationCursor)
    (store : List SubmissionRecord) (f n k : Nat) (sl : List Nat)
    (att : Nat) (slp : List Nat)
    (hF : fetchWithRetry client cfg cid c = ⟨.ok [], att, slp⟩) :
    crawlLoop client cfg cid (fuel + 1) c store f n k sl
      = some ⟨store, ⟨.Complete, f, n, k⟩, sl ++ slp⟩ := by
  simp [crawlLoop, hF]

/-- One loop step under a non-empty fetched page: upsert, advance the
cursor, continue. -/
lemma crawlLoop_fetch_cons (client : JudgeClient) (cfg : CrawlConfig)
    (cid : String) (fuel : Nat) (c : PaginationCursor)
    (store : List SubmissionRecord) (f n k : Nat) (sl : List Nat)
    (att : Nat) (slp : List Nat) (r : SubmissionRecord)
    (rs : List SubmissionRecord)
    (hF : fetchWithRetry client cfg cid c = ⟨.ok (r :: rs), att, slp⟩) :
    crawlLoop client cfg cid (fuel + 1) c store f n k sl
      = crawlLoop client cfg cid fuel (advanceCursor c (r :: rs))
          (upsertPage store (r :: rs)).1 (f + (r :: rs).length)
          (n + (upsertPage store (r :: rs)).2.1)
          (k + (upsertPage store (r :: rs)).2.2) (sl ++ slp) := by
  simp [crawlLoop, hF]

end Crawler

namespace Crawler

/-- C3: against a judge client that fails transiently on every attempt at a
cursor, the page fetch makes exactly the configured bound's worth of
attempts, sleeping the capped doubling backoff schedule between them, and
the crawl then fails with `Unavailable` while the store — holding every
page persisted before the failing page — is returned unchanged (no
rollback). -/
theorem crawl_retry_exhaustion
    (client : JudgeClient) (cfg : CrawlConfig) (cid : String)
    (cursor : PaginationCursor)
    (h : ∀ a, client.fetch cid cursor a = .error .Transient)
    (hr : 1 ≤ cfg.retryBound) :
    fetchWithRetry client cfg cid cursor
      = ⟨.error .Unavailable, cfg.retryBound,
          (List.range (cfg.retryBound - 1)).map (backoffDelay cfg)⟩ ∧
    ∀ fuel store f n k sl,
      crawlLoop client cfg cid (fuel + 1) cursor store f n k sl
        = some ⟨store, ⟨.Failed .Unavailable, f, n, k⟩,
            sl ++ (List.range (cfg.retryBound - 1)).map (backoffDelay cfg)⟩ := by
  obtain ⟨m, hm⟩ := Nat.exists_eq_add_of_le hr
  have hsl : (List.range (cfg.retryBound - 1)).map (backoffDelay cfg)
      = (List.range m).map fun i => backoffDelay cfg (0 + i) := by
    rw [hm]
    simp only [Nat.add_sub_cancel_left]
    exact List.map_congr_left fun i _ => congrArg (backoffDelay cfg) (by omega)
  have hfetch : fetchWithRetry client cfg cid cursor
      = ⟨.error .Unavailable, cfg.retryBound,
          (List.range (cfg.retryBound - 1)).map (backoffDelay cfg)⟩ := by
    rw [fetchWithRetry, hsl, hm, Nat.add_comm 1 m,
      fetchRetryGo_transient client cfg cid cursor h m 0]
    simp [FetchOutcome.mk.injEq]
  refine ⟨hfetch, fun fuel store f n k sl => ?_⟩
  exact crawlLoop_fetch_error client cfg cid fuel cursor store f n k sl
    .Unavailable cfg.retryBound
    ((List.range (cfg.retryBound - 1)).map (backoffDelay cfg)) hfetch

/-- C3 witness: retry bound 4 with base delay 100 capped at 250 makes
exactly 4 attempts with delays 100, 200, 250 and preserves the one record
persisted before the failing page. -/
theorem crawl_retry_exhaustion_witness :
    fetchWithRetry transientClient ⟨4, 100, 250⟩ "abc001" none
      = ⟨.error .Unavailable, 4, [100, 200, 250]⟩ ∧
    crawlLoop transientClient ⟨4, 100, 250⟩ "abc001" 1 none [mkRec 1 10] 1 1 0 []
      = some ⟨[mkRec 1 10], ⟨.Failed .Unavailable, 1, 1, 0⟩, [100, 200, 250]⟩ := by
  have h := crawl_retry_exhaustion transientClient ⟨4, 100, 250⟩ "abc001" none
    (fun _ => rfl) (by decide)
  exact ⟨h.1.trans rfl, (h.2 0 [mkRec 1 10] 1 1 0 []).trans rfl⟩

/-- C4: a judge client returning a permanent error on the very first page
request makes the crawl abort at once — one attempt, zero retries, zero
backoff sleeps, zero persisted records — with `InvalidContest` for a
"not found" error and `ProtocolError` for a malformed response. -/
theorem crawl_permanent_short_circuit
    (client : JudgeClient) (cfg : CrawlConfig) (db : PgPool) (cid : String)
    (fuel : Nat) (hr : 1 ≤ cfg.retryBound) :
    (client.fetch cid none 0 = .error .NotFound →
      fetchWithRetry client cfg cid none = ⟨.error .InvalidContest, 1, []⟩ ∧
      WholeContestCrawler.crawl ⟨db, client, cid⟩ cfg (fuel + 1) []
        = some ⟨[], ⟨.Failed .InvalidContest, 0, 0, 0⟩, []⟩) ∧
    (client.fetch cid none 0 = .error .Malformed →
      fetchWithRetry client cfg cid none = ⟨.error .ProtocolError, 1, []⟩ ∧
      WholeContestCrawler.crawl ⟨db, client, cid⟩ cfg (fuel + 1) []
        = some ⟨[], ⟨.Failed .ProtocolError, 0, 0, 0⟩, []⟩) := by
  constructor
  · intro h
    have hf := fetchWithRetry_first_notFound client cfg cid none h hr
    refine ⟨hf, ?_⟩
    rw [WholeContestCrawler.crawl]
    exact (crawlLoop_fetch_error client cfg cid fuel none [] 0 0 0 []
      .InvalidContest 1 [] hf).trans rfl
  · intro h
    have hf := fetchWithRetry_first_malformed client cfg cid none h hr
    refine ⟨hf, ?_⟩
    rw [WholeContestCrawler.crawl]
    exact (crawlLoop_fetch_error client cfg cid fuel none [] 0 0 0 []
      .ProtocolError 1 [] hf).trans rfl

/-- C4 witness: a concrete "contest not found" client aborts the crawl on
attempt one with nothing persisted. -/
theorem crawl_permanent_short_circuit_witness :
    fetchWithRetry notFoundClient ⟨3, 100, 250⟩ "abc001" none
      = ⟨.error .InvalidContest, 1, []⟩ ∧
    WholeContestCrawler.crawl ⟨⟨"postgres://h"⟩, notFoundClient, "abc001"⟩
        ⟨3, 100, 250⟩ 1 []
      = some ⟨[], ⟨.Failed .InvalidContest, 0, 0, 0⟩, []⟩ := by
  exact (crawl_permanent_short_circuit notFoundClient ⟨3, 100, 250⟩
    ⟨"postgres://h"⟩ "abc001" 0 (by decide)).1 rfl

end Crawler

namespace Crawler

/-- The key order is irreflexive. -/
lemma keyLt_irrefl (k : Nat × Nat) : keyLt k k = false := by
  simp [keyLt]

/-- The key order is asymmetric. -/
lemma keyLt_asymm (a b : Nat × Nat) (h : keyLt a b = true) : keyLt b a = false := by
  simp [keyLt] at h ⊢
  omega

/-- A cursor that rejects everything in `done` and accepts everything in
`rest` filters `done ++ rest` to exactly `rest`. -/
lemma filter_afterCursor_split (c : PaginationCursor)
    (done rest : List SubmissionRecord)
    (hdone : ∀ x ∈ done, afterCursor c x = false)
    (hrest : ∀ x ∈ rest, afterCursor c x = true) :
    (done ++ rest).filter (afterCursor c) = rest := by
  rw [List.filter_append,
    List.filter_eq_nil_iff.mpr fun a ha => by simp [hdone a ha],
    List.filter_eq_self.mpr hrest, List.nil_append]

/-- Advancing the cursor past a non-empty page rejects every record of
`done ++ page` (no re-return) and accepts every record of `rest` (no
skip). -/
lemma advanceCursor_split (subs done page rest : List SubmissionRecord)
    (c : PaginationCursor) (hsort : sortedByKey subs)
    (hsplit : subs = done ++ page ++ rest) (hpage : page ≠ []) :
    (∀ x ∈ done ++ page, afterCursor (advanceCursor c page) x = false) ∧
    (∀ x ∈ rest, afterCursor (advanceCursor c page) x = true) := by
  have hlastq : page.getLast? = some (page.getLast hpage) :=
    List.getLast?_eq_getLast_of_ne_nil hpage
  have hadv : advanceCursor c page = some (page.getLast hpage).key := by
    rw [advanceCursor, hlastq]
  have hlast_mem : page.getLast hpage ∈ page := List.getLast_mem hpage
  rw [hsplit, sortedByKey, List.pairwise_append] at hsort
  obtain ⟨hdp_pw, hrest_pw, hcross⟩ := hsort
  have hdp_pw2 := hdp_pw
  rw [List.pairwise_append] at hdp_pw2
  obtain ⟨hdone_pw, hpage_pw, hcross_dp⟩ := hdp_pw2
  constructor
  · intro x hx
    rw [hadv]
    show keyLt (page.getLast hpage).key x.key = false
    rcases List.mem_append.mp hx with hxd | hxp
    · exact keyLt_asymm _ _ (hcross_dp x hxd _ hlast_mem)
    · have hdecomp := List.dropLast_append_getLast hpage
      have hx2 : x ∈ page.dropLast ++ [page.getLast hpage] := by
        rw [hdecomp]; exact hxp
      rcases List.mem_append.mp hx2 with hx3 | hx3
      · have hpw := hpage_pw
        rw [← hdecomp, List.pairwise_append] at hpw
        obtain ⟨_, _, hc3⟩ := hpw
        exact keyLt_asymm _ _ (hc3 x hx3 _ (List.mem_singleton.mpr rfl))
      · rw [List.mem_singleton.mp hx3]
        exact keyLt_irrefl _
  · intro x hx
    rw [hadv]
    show keyLt (page.getLast hpage).key x.key = true
    exact hcross _ (List.mem_append_right done hlast_mem) x hx

/-- Upserting a page whose every id is already in the store is a no-op:
zero new records, all counted as already known. -/
lemma upsertPage_known (store page : List SubmissionRecord)
    (h : ∀ r ∈ page, store.any (fun s => s.id == r.id) = true) :
    upsertPage store page = (store, 0, page.length) := by
  induction page with
  | nil => rfl
  | cons r rs ih =>
    rw [upsertPage, if_pos (h r (List.mem_cons_self r rs)),
      ih fun x hx => h x (List.mem_cons_of_mem r hx)]
    rfl

/-- Upserting a page of fresh, mutually distinct ids appends the whole
page: every record newly persisted, none already known. -/
lemma upsertPage_fresh (store page : List SubmissionRecord)
    (hdisj : ∀ r ∈ page, store.any (fun s => s.id == r.id) = false)
    (hnd : (page.map fun r => r.id).Nodup) :
    upsertPage store page = (store ++ page, page.length, 0) := by
  induction page generalizing store with
  | nil => simp [upsertPage]
  | cons r rs ih =>
    rw [List.map_cons, List.nodup_cons] at hnd
    obtain ⟨hrid, hnd2⟩ := hnd
    have hcond : store.any (fun s => s.id == r.id) = false :=
      hdisj r (List.mem_cons_self r rs)
    have hdisj2 : ∀ x ∈ rs, (store ++ [r]).any (fun s => s.id == x.id) = false := by
      intro x hx
      rw [List.any_append]
      have h1 : store.any (fun s => s.id == x.id) = false :=
        hdisj x (List.mem_cons_of_mem r hx)
      have h2 : r.id ≠ x.id := by
        intro he
        exact hrid (he ▸ List.mem_map_of_mem (fun s => s.id) hx)
      simp [h1, h2]
    rw [upsertPage, if_neg (by simp [hcond]), ih (store ++ [r]) hdisj2 hnd2]
    simp

/-- The store only grows along an upsert: any membership test that held
before the page still holds after it. -/
lemma upsertPage_mono (page : List SubmissionRecord) :
    ∀ (store : List SubmissionRecord) (p : SubmissionRecord → Bool),
      store.any p = true → (upsertPage store page).1.any p = true := by
  induction page with
  | nil =>
    intro store p h
    simpa [upsertPage] using h
  | cons r rs ih =>
    intro store p h
    rw [upsertPage]
    cases hc : store.any fun s => s.id == r.id
    · rw [if_neg (by simp)]
      exact ih (store ++ [r]) p (by rw [List.any_append, h, Bool.true_or])
    · rw [if_pos rfl]
      exact ih store p h

/-- Every record of an upserted page is present in the resulting store. -/
lemma upsertPage_adds (page : List SubmissionRecord) :
    ∀ (store : List SubmissionRecord) (x : SubmissionRecord), x ∈ page →
      (upsertPage store page).1.any (fun s => s.id == x.id) = true := by
  induction page with
  | nil =>
    intro _ x hx
    cases hx
  | cons r rs ih =>
    intro store x hx
    rw [upsertPage]
    cases hc : store.any fun s => s.id == r.id
    · rw [if_neg (by simp)]
      rcases List.mem_cons.mp hx with rfl | hx2
      · exact upsertPage_mono rs (store ++ [x]) _
          (by rw [List.any_append]; simp)
      · exact ih (store ++ [r]) x hx2
    · rw [if_pos rfl]
      rcases List.mem_cons.mp hx with rfl | hx2
      · exact upsertPage_mono rs store _ hc
      · exact ih store x hx2

/-- Splitting a globally id-nodup listing `(done ++ page) ++ rest`: the
page's ids are mutually distinct and disjoint from the already-processed
prefix. -/
lemma nodup_ids_split (done page rest : List SubmissionRecord)
    (h : ((done ++ page ++ rest).map fun r => r.id).Nodup) :
    ((page.map fun r => r.id).Nodup) ∧
    (∀ x ∈ page, done.any (fun s => s.id == x.id) = false) := by
  rw [List.map_append, List.nodup_append] at h
  obtain ⟨h1, _, _⟩ := h
  rw [List.map_append, List.nodup_append] at h1
  obtain ⟨hd, hp, hdisj⟩ := h1
  refine ⟨hp, fun x hx => ?_⟩
  rw [List.any_eq_false]
  intro s hs
  have hmem1 : s.id ∈ done.map fun r => r.id := List.mem_map_of_mem _ hs
  have hmem2 : x.id ∈ page.map fun r => r.id := List.mem_map_of_mem _ hx
  have hne : s.id ≠ x.id := fun he => hdisj hmem1 (he ▸ hmem2)
  simp [hne]

/-- Pagination invariant over a synthetic judge listing: from a cursor that
has consumed exactly the prefix `done` (already in the store), a crawl
loop with fuel exceeding the number of remaining records completes,
appending exactly the remaining records to the store and counting each
exactly once. -/
lemma crawlLoop_synthetic_run (subs : List SubmissionRecord) (psize : Nat)
    (cfg : CrawlConfig) (cid : String)
    (hsort : sortedByKey subs) (hids : (subs.map fun r => r.id).Nodup)
    (hp : 0 < psize) (hr : 1 ≤ cfg.retryBound) :
    ∀ fuel done rest c f n k sl,
      subs = done ++ rest →
      (∀ x ∈ done, afterCursor c x = false) →
      (∀ x ∈ rest, afterCursor c x = true) →
      rest.length < fuel →
      crawlLoop (syntheticClient subs psize) cfg cid fuel c done f n k sl
        = some ⟨done ++ rest,
            ⟨.Complete, f + rest.length, n + rest.length, k⟩, sl⟩ := by
  intro fuel
  induction fuel with
  | zero =>
    intro done rest c f n k sl _ _ _ hlt
    omega
  | succ fuel ih =>
    intro done rest c f n k sl hsplit hdone hrest hlt
    have hfilter : subs.filter (afterCursor c) = rest := by
      rw [hsplit]
      exact filter_afterCursor_split c done rest hdone hrest
    have hFW := fetchWithRetry_first_ok (syntheticClient subs psize) cfg cid c
      (fetchPage subs psize c) rfl hr
    cases rest with
    | nil =>
      have hpage : fetchPage subs psize c = [] := by
        rw [fetchPage, hfilter, List.take_nil]
      rw [hpage] at hFW
      rw [crawlLoop_fetch_nil _ _ _ fuel c done f n k sl 1 [] hFW]
      simp
    | cons r rs =>
      obtain ⟨q, hq⟩ : ∃ q, psize = q + 1 := ⟨psize - 1, by omega⟩
      have hpage : fetchPage subs psize c = r :: rs.take q := by
        rw [fetchPage, hfilter, hq, List.take_succ_cons]
      rw [hpage] at hFW
      have hsplitrest : r :: rs = (r :: rs.take q) ++ rs.drop q := by
        rw [List.cons_append, List.take_append_drop]
      have hsubs2 : subs = done ++ (r :: rs.take q) ++ rs.drop q := by
        rw [hsplit, hsplitrest, ← List.append_assoc]
      obtain ⟨hnd_page, hdisj_page⟩ :=
        nodup_ids_split done (r :: rs.take q) (rs.drop q)
          (by rw [← hsubs2]; exact hids)
      have hup := upsertPage_fresh done (r :: rs.take q) hdisj_page hnd_page
      have hadv := advanceCursor_split subs done (r :: rs.take q) (rs.drop q)
        c hsort hsubs2 (by simp)
      have hlen2 : (rs.drop q).length < fuel := by
        have h1 := hlt
        rw [List.length_cons] at h1
        rw [List.length_drop]
        omega
      have hIH := ih (done ++ (r :: rs.take q)) (rs.drop q)
        (advanceCursor c (r :: rs.take q))
        (f + (r :: rs.take q).length) (n + (r :: rs.take q).length) k (sl ++ [])
        hsubs2 hadv.1 hadv.2 hlen2
      rw [crawlLoop_fetch_cons _ _ _ fuel c done f n k sl 1 [] r (rs.take q) hFW]
      simp only [hup, Nat.add_zero]
      rw [hIH, hsplitrest]
      simp [List.length_append, List.append_assoc, Nat.add_assoc]
      omega

/-- C1: against a judge service reporting a fixed, key-sorted, id-unique
set of submissions across pages of any positive size, a crawl with enough
fuel returns Complete and persists exactly that set — the final store is
the reported listing itself (so every reported id appears, none twice, and
nothing between consecutive pages is lost), with every record counted as
fetched and newly persisted exactly once. -/
theorem crawl_completeness (subs : List SubmissionRecord) (psize : Nat)
    (cfg : CrawlConfig) (db : PgPool) (cid : String)
    (hsort : sortedByKey subs) (hids : (subs.map fun r => r.id).Nodup)
    (hp : 0 < psize) (hr : 1 ≤ cfg.retryBound) :
    (WholeContestCrawler.mk db (syntheticClient subs psize) cid).crawl cfg
        (subs.length + 1) []
      = some ⟨subs, ⟨.Complete, subs.length, subs.length, 0⟩, []⟩ := by
  have h := crawlLoop_synthetic_run subs psize cfg cid hsort hids hp hr
    (subs.length + 1) [] subs none 0 0 0 []
    (List.nil_append subs).symm (fun x hx => absurd hx (List.not_mem_nil x))
    (fun x _ => rfl) (by omega)
  rw [WholeContestCrawler.crawl]
  simpa using h

/-- C1 witness: 5 submissions over pages of size 2 (2/2/1) are all
persisted exactly once. -/
theorem crawl_completeness_witness :
    (WholeContestCrawler.mk ⟨"postgres://h"⟩ (syntheticClient sampleSubs 2)
        "abc001").crawl ⟨3, 100, 250⟩ 6 []
      = some ⟨sampleSubs, ⟨.Complete, 5, 5, 0⟩, []⟩ := by
  exact crawl_completeness sampleSubs 2 ⟨3, 100, 250⟩ ⟨"postgres://h"⟩
    "abc001" (by rw [sortedByKey]; decide) (by decide) (by decide) (by decide)

/-- C5: after a non-empty page, the cursor advanced strictly past the
page's last record (by `(timestamp, id)` key) makes the next page request
return exactly the continuation of the listing — it can neither re-return
a record of the page (or of any earlier page) nor skip one — and the
page's records, timestamp ties included, are each persisted exactly
once. -/
theorem cursor_advance_no_rereturn_no_skip
    (subs done page rest : List SubmissionRecord) (psize : Nat)
    (c : PaginationCursor) (hsort : sortedByKey subs)
    (hids : (subs.map fun r => r.id).Nodup)
    (hsplit : subs = done ++ page ++ rest) (hpage : page ≠ []) :
    fetchPage subs psize (advanceCursor c page) = rest.take psize ∧
    (∀ x ∈ done ++ page, x ∉ fetchPage subs psize (advanceCursor c page)) ∧
    upsertPage done page = (done ++ page, page.length, 0) := by
  have hadv := advanceCursor_split subs done page rest c hsort hsplit hpage
  have hfilter : subs.filter (afterCursor (advanceCursor c page)) = rest := by
    rw [hsplit]
    exact filter_afterCursor_split _ (done ++ page) rest hadv.1 hadv.2
  refine ⟨by rw [fetchPage, hfilter], ?_, ?_⟩
  · intro x hx hmem
    rw [fetchPage, hfilter] at hmem
    have hx2 : x ∈ rest := List.take_subset psize rest hmem
    have hnd : subs.Nodup := List.Nodup.of_map _ hids
    rw [hsplit, List.nodup_append] at hnd
    exact hnd.2.2 hx hx2
  · obtain ⟨hnd_page, hdisj_page⟩ := nodup_ids_split done page rest
      (by rw [← hsplit]; exact hids)
    exact upsertPage_fresh done page hdisj_page hnd_page

/-- C5 witness: a final page of 3 submissions sharing timestamp 20 — the
advanced cursor's next request is the empty page (nothing re-returned,
nothing skipped) and all 3 are persisted exactly once. -/
theorem cursor_advance_no_rereturn_no_skip_witness :
    fetchPage sampleSubs 3
        (advanceCursor (some (15, 2)) [mkRec 3 20, mkRec 4 20, mkRec 5 20])
      = [] ∧
    upsertPage [mkRec 1 10, mkRec 2 15] [mkRec 3 20, mkRec 4 20, mkRec 5 20]
      = ([mkRec 1 10, mkRec 2 15] ++ [mkRec 3 20, mkRec 4 20, mkRec 5 20],
          3, 0) := by
  have h := cursor_advance_no_rereturn_no_skip sampleSubs
    [mkRec 1 10, mkRec 2 15] [mkRec 3 20, mkRec 4 20, mkRec 5 20] [] 3
    (some (15, 2)) (by rw [sortedByKey]; decide) (by decide) (by decide)
    (by decide)
  exact ⟨h.1, h.2.2⟩

/-- A completed crawl is store-monotone, and re-running its loop from any
store that already contains every id of its final store leaves that store
unchanged with zero newly persisted records: page requests do not depend
on the store, so the re-run follows the same cursor path and every page is
already known. -/
lemma crawlLoop_rerun (client : JudgeClient) (cfg : CrawlConfig) (cid : String) :
    ∀ fuel c store f n k sl o,
      crawlLoop client cfg cid fuel c store f n k sl = some o →
      o.result.status = .Complete →
      ((∀ x : SubmissionRecord, store.any (fun s => s.id == x.id) = true →
          o.store.any (fun s => s.id == x.id) = true) ∧
        ∀ store2 f2 n2 k2 sl2,
          (∀ x : SubmissionRecord,
            o.store.any (fun s => s.id == x.id) = true →
            store2.any (fun s => s.id == x.id) = true) →
          ∃ f2x k2x sl2x,
            crawlLoop client cfg cid fuel c store2 f2 n2 k2 sl2
              = some ⟨store2, ⟨.Complete, f2x, n2, k2x⟩, sl2x⟩) := by
  intro fuel
  induction fuel with
  | zero =>
    intro c store f n k sl o ho
    rw [crawlLoop] at ho
    cases ho
  | succ fuel ih =>
    intro c store f n k sl o ho hcomp
    have hFW : fetchWithRetry client cfg cid c
        = ⟨(fetchWithRetry client cfg cid c).result,
            (fetchWithRetry client cfg cid c).attempts,
            (fetchWithRetry client cfg cid c).sleeps⟩ := rfl
    cases hres : (fetchWithRetry client cfg cid c).result with
    | error reason =>
      rw [hres] at hFW
      rw [crawlLoop_fetch_error _ _ _ fuel c store f n k sl reason _ _ hFW] at ho
      injection ho with ho2
      subst ho2
      simp at hcomp
    | ok page =>
      rw [hres] at hFW
      cases page with
      | nil =>
        rw [crawlLoop_fetch_nil _ _ _ fuel c store f n k sl _ _ hFW] at ho
        injection ho with ho2
        subst ho2
        refine ⟨fun x hx => hx, ?_⟩
        intro store2 f2 n2 k2 sl2 hsup
        exact ⟨f2, k2, sl2 ++ (fetchWithRetry client cfg cid c).sleeps,
          crawlLoop_fetch_nil _ _ _ fuel c store2 f2 n2 k2 sl2 _ _ hFW⟩
      | cons r rs =>
        rw [crawlLoop_fetch_cons _ _ _ fuel c store f n k sl _ _ r rs hFW] at ho
        obtain ⟨hmono, hrerun⟩ := ih (advanceCursor c (r :: rs))
          (upsertPage store (r :: rs)).1 (f + (r :: rs).length)
          (n + (upsertPage store (r :: rs)).2.1)
          (k + (upsertPage store (r :: rs)).2.2)
          (sl ++ (fetchWithRetry client cfg cid c).sleeps) o ho hcomp
        constructor
        · intro x hx
          exact hmono x (upsertPage_mono (r :: rs) store _ hx)
        · intro store2 f2 n2 k2 sl2 hsup
          have hknown : ∀ x ∈ (r :: rs),
              store2.any (fun s => s.id == x.id) = true :=
            fun x hx => hsup x (hmono x (upsertPage_adds (r :: rs) store x hx))
          have hup2 := upsertPage_known store2 (r :: rs) hknown
          obtain ⟨f2x, k2x, sl2x, hrec⟩ := hrerun store2
            (f2 + (r :: rs).length) n2 (k2 + (r :: rs).length)
            (sl2 ++ (fetchWithRetry client cfg cid c).sleeps) hsup
          refine ⟨f2x, k2x, sl2x, ?_⟩
          rw [crawlLoop_fetch_cons _ _ _ fuel c store2 f2 n2 k2 sl2 _ _ r rs hFW]
          simp only [hup2, Nat.add_zero]
          exact hrec

/-- C2: re-running `crawl` against an unchanged upstream from the store a
completed first run produced leaves the persisted set exactly as it was —
the second run returns the same store (no duplicate rows) and reports zero
newly persisted records. -/
theorem crawl_idempotent (db : PgPool) (client : JudgeClient) (cid : String)
    (cfg : CrawlConfig) (fuel : Nat) (o : CrawlOutcome)
    (h1 : (WholeContestCrawler.mk db client cid).crawl cfg fuel [] = some o)
    (hc : o.result.status = .Complete) :
    ∃ f2 k2 sl2,
      (WholeContestCrawler.mk db client cid).crawl cfg fuel o.store
        = some ⟨o.store, ⟨.Complete, f2, 0, k2⟩, sl2⟩ := by
  rw [WholeContestCrawler.crawl] at h1 ⊢
  obtain ⟨hmono, hrerun⟩ :=
    crawlLoop_rerun client cfg cid fuel none [] 0 0 0 [] o h1 hc
  exact hrerun o.store 0 0 0 [] fun x hx => hx

/-- C2 witness: the second run over the 5-record listing persists zero new
records and keeps the store equal to the first run's. -/
theorem crawl_idempotent_witness :
    ∃ f2 k2 sl2,
      (WholeContestCrawler.mk ⟨"postgres://h"⟩ (syntheticClient sampleSubs 2)
          "abc001").crawl ⟨3, 100, 250⟩ 6 sampleSubs
        = some ⟨sampleSubs, ⟨.Complete, f2, 0, k2⟩, sl2⟩ := by
  exact crawl_idempotent ⟨"postgres://h"⟩ (syntheticClient sampleSubs 2)
    "abc001" ⟨3, 100, 250⟩ 6 ⟨sampleSubs, ⟨.Complete, 5, 5, 0⟩, []⟩
    (by decide) rfl

end Crawler
